import Mathlib

/-!
Verification of the Route Registry + Fitness Evaluation Engine of the
`route_manager` repository, shallowly embedded in Lean 4.

Numeric values are embedded as exact rationals (`ℚ`).  Where the Python code
inspects IEEE special values (`float("inf")`, `float("-inf")`, `nan`) during
argument validation, the inputs are embedded in the type `F` below, which is a
rational together with the three special values and the IEEE comparison
semantics (`nan` compares false against everything).  Arithmetic is only ever
performed after validation has forced all operands to be finite, so the score
computations themselves live in `ℚ`.
-/

namespace RouteManagerProof

/-- A Python float as used by the score calculators: a finite (rational)
value or one of the IEEE special values. -/
inductive F where
  | fin (q : ℚ)
  | inf
  | ninf
  | nan
deriving DecidableEq

/-- IEEE `<` on embedded floats: finite values compare as rationals,
`-inf < finite < inf`, and every comparison involving `nan` is false. -/
def F.blt : F → F → Bool
  | .fin a, .fin b => a < b
  | .fin _, .inf => true
  | .ninf, .fin _ => true
  | .ninf, .inf => true
  | _, _ => false

/-- The rational carried by a finite value (validation guards every use, so
the value returned on the special values is never reached). -/
def F.toRat : F → ℚ
  | .fin q => q
  | _ => 0

/-- Whether an embedded float is a finite value. -/
def F.isFinite : F → Bool
  | .fin _ => true
  | _ => false

/-- Errors raised by the embedded code.  `invalidArgument` stands for the
`ValueError` that `score_calcs` raises on malformed numeric input (the spec's
`InvalidArgument`); `noPathError` for the disconnected-pair failure (the
spec's `NoPathError`). -/
inductive Err where
  | invalidArgument
  | noPathError
deriving DecidableEq

/-- The score formula of `calculate_distance_score` on validated (finite,
in-domain) inputs: `score = 1 - v/(max_variance + v)` with
`v = |desired - actual|`, multiplied by `PENALTY_FACTOR = 0.01` when the
deviation exceeds `max_variance` (src/route_manager/score_calcs.py:63-76). -/
def distScoreCore (desired_dist actual_dist max_variance : ℚ) : ℚ :=
  let actual_variance := |desired_dist - actual_dist|
  let score := 1 - actual_variance / (max_variance + actual_variance)
  if max_variance < actual_variance then score * (1 / 100) else score

/-- Embedding of `calculate_distance_score`
(src/route_manager/score_calcs.py:10-76).  The three domain checks mirror the
source's chained float comparisons, in source order:
`0 < max_variance < desired_dist`, `0 < actual_dist < inf`,
`0 < desired_dist < inf`; each failure raises `ValueError`
(= `invalidArgument`). -/
def calculate_distance_score (desired_dist actual_dist max_variance : F) :
    Except Err ℚ :=
  if ¬ (F.blt (.fin 0) max_variance ∧ F.blt max_variance desired_dist) then
    .error .invalidArgument
  else if ¬ (F.blt (.fin 0) actual_dist ∧ F.blt actual_dist .inf) then
    .error .invalidArgument
  else if ¬ (F.blt (.fin 0) desired_dist ∧ F.blt desired_dist .inf) then
    .error .invalidArgument
  else
    .ok (distScoreCore desired_dist.toRat actual_dist.toRat max_variance.toRat)

/-- The weight table of `calculate_road_type_score`
(src/route_manager/score_calcs.py:107-137), with
`OPTIMAL = 4, PREFER = 3, NEUTRAL = 2, AVOID = 1, PROHIBIT = 0`.  The order
is the Python dict's (insertion) order, which the loop iterates. -/
def highway_weights : List (String × ℕ) :=
  [("motorway", 0), ("trunk", 2), ("primary", 3), ("secondary", 3),
   ("tertiary", 3), ("unclassified", 3), ("motorway_link", 0),
   ("trunk_link", 2), ("primary_link", 3), ("secondary_link", 3),
   ("tertiary_link", 3), ("living_street", 3), ("service", 1), ("track", 1),
   ("bus_guideway", 0), ("road", 3), ("footway", 1), ("bridleway", 0),
   ("steps", 0), ("corridor", 1), ("path", 0), ("via_ferrata", 0),
   ("escape", 0), ("raceway", 0), ("pedestrian", 1), ("residential", 3),
   ("cycleway", 1), ("proposed", 0), ("construction", 0)]

/-- The accumulator of the loop in `calculate_road_type_score`
(src/route_manager/score_calcs.py:139-158): running
`(route_score, length, prohibited_length)`.  The input dictionary
`highway_lengths` is embedded as a partial map `String → Option ℚ`; the loop
runs over `highway_weights` and only consults the input by key lookup,
exactly as the Python `for highway, weight in highway_weights.items()` loop
does. -/
def roadAcc (highway_lengths : String → Option ℚ) : ℚ × ℚ × ℚ :=
  highway_weights.foldl
    (fun acc hw =>
      match highway_lengths hw.1 with
      | some len =>
        if hw.2 = 0 then (acc.1, acc.2.1 + len, acc.2.2 + len)
        else (acc.1 + (hw.2 : ℚ) * len, acc.2.1 + len, acc.2.2)
      | none => acc)
    (0, 0, 0)

/-- Embedding of `calculate_road_type_score`
(src/route_manager/score_calcs.py:79-173): after the loop, a
`PENALTY_FACTOR = 0.1` multiplication when any prohibited length was seen,
then division by `length * OPTIMAL` unless the total length is zero, in which
case the score is 0. -/
def calculate_road_type_score (highway_lengths : String → Option ℚ) : ℚ :=
  let acc := roadAcc highway_lengths
  let route_score := if 0 < acc.2.2 then acc.1 * (1 / 10) else acc.1
  if acc.2.1 = 0 then 0 else route_score / (acc.2.1 * 4)

/-- Spec-side characterisation: `raw = Σ (weight[type] × length[type])` over
known, non-prohibited categories (absent categories contribute 0). -/
def rawScore (highway_lengths : String → Option ℚ) : ℚ :=
  (highway_weights.map
    (fun hw =>
      if hw.2 = 0 then 0 else (hw.2 : ℚ) * ((highway_lengths hw.1).getD 0))).sum

/-- Spec-side characterisation: `total_length = Σ length[type]` over all known
categories present. -/
def totalLength (highway_lengths : String → Option ℚ) : ℚ :=
  (highway_weights.map (fun hw => (highway_lengths hw.1).getD 0)).sum

/-- Spec-side characterisation: total length lying in known prohibited
categories. -/
def prohibitedLength (highway_lengths : String → Option ℚ) : ℚ :=
  (highway_weights.map
    (fun hw => if hw.2 = 0 then (highway_lengths hw.1).getD 0 else 0)).sum

/-- The road-network graph as the registry consumes it: a node set and, for
each node, the list of one-hop (successor) neighbours, which is all
`RouteManager` ever asks of the osmnx `MultiDiGraph`
(`self.graph.neighbors(node)` and `self.graph.subgraph(nodes)`). -/
structure Graph where
  nodes : Finset ℕ
  succ : ℕ → List ℕ

/-- `networkx` induced subgraph: node set is the intersection of the graph's
nodes with the supplied bunch; adjacency is restricted to that node set. -/
def Graph.subgraph (g : Graph) (bunch : Finset ℕ) : Graph :=
  { nodes := g.nodes ∩ bunch,
    succ := fun n =>
      if n ∈ g.nodes ∩ bunch then (g.succ n).filter (· ∈ g.nodes ∩ bunch)
      else [] }

/-- `p` is a walk through `g` (consecutive nodes adjacent) from `s` to `e`. -/
def Graph.IsWalkFrom (g : Graph) (s e : ℕ) (p : List ℕ) : Prop :=
  p.head? = some s ∧ p.getLast? = some e ∧ p.Chain' (fun a b => b ∈ g.succ a)

/-- Depth-first path search with an explicit visited list and fuel.
Modelled from the spec: the osmnx `shortest_path` collaborator is not under
`src/`; per §6 of the spec it returns a node sequence between the endpoints
and fails with `NoPathError` when they are disconnected.  With
`fuel = |nodes| + 1` the search finds a path exactly when one exists (only
the soundness direction — a returned list really is a walk — is used in the
proofs). -/
def dfsPath (g : Graph) (e : ℕ) :
    ℕ → List ℕ → ℕ → Option (List ℕ)
  | 0, _, _ => none
  | fuel + 1, visited, s =>
    if s = e then some [s]
    else if s ∈ visited then none
    else (g.succ s).findSome?
      (fun n => (dfsPath g e fuel (s :: visited) n).map (fun p => s :: p))

/-- A score as produced by the fitness engine: a finite value or the
hard-fail `float("-inf")`. -/
inductive Score where
  | ninf
  | val (q : ℚ)
deriving DecidableEq

/-- IEEE addition as exercised by the fitness sum: finite values add, and a
`-inf` operand makes the sum `-inf`. -/
def Score.add : Score → Score → Score
  | .val a, .val b => .val (a + b)
  | _, _ => .ninf

/-- Weighting of a criterion score (the weight table holds positive finite
weights, so `w * -inf = -inf`). -/
def Score.smul (w : ℚ) : Score → Score
  | .val q => .val (w * q)
  | .ninf => .ninf

/-- One registered route record, i.e. the dictionary stored by
`RouteManager.add_route` (src/route_manager/route_manager.py:256-264).
`fitness` is the key `calc_fitness_for_routes` later writes; it is absent
(`none`) until then. -/
structure RouteRec where
  start_node : ℕ
  end_node : ℕ
  path : List ℕ
  route_graph : Graph
  route_and_neighbour_graph : Graph
  fitness : Option Score

/-- The `RouteManager` state touched by the registry claims: the borrowed
graph, the `routes` dictionary (embedded as an association list where lookup
finds the most recent binding, matching dict assignment/lookup), and the
optional registered fitness function. -/
structure RouteManager where
  graph : Graph
  routes : List (String × RouteRec)
  fitness_func : Option (RouteRec → Score)

/-- Embedding of `RouteManager.get_path_neigbours`
(src/route_manager/route_manager.py:266-286): the set of all one-hop
neighbours of the nodes of `path`. -/
def RouteManager.get_path_neigbours (rm : RouteManager) (path : List ℕ) :
    Finset ℕ :=
  path.foldl (fun acc node => acc ∪ (rm.graph.succ node).toFinset) ∅

/-- Embedding of `RouteManager.add_route`
(src/route_manager/route_manager.py:231-264): derive the two sub-graphs and
store the record under `route_name`. -/
def RouteManager.add_route (rm : RouteManager) (route_name : String)
    (start_node end_node : ℕ) (path : List ℕ) : RouteManager :=
  let neighbours := rm.get_path_neigbours path
  { rm with
    routes :=
      (route_name,
        { start_node := start_node,
          end_node := end_node,
          path := path,
          route_graph := rm.graph.subgraph path.toFinset,
          route_and_neighbour_graph :=
            rm.graph.subgraph (neighbours ∪ path.toFinset),
          fitness := none }) :: rm.routes }

/-- Embedding of `RouteManager.get_route`
(src/route_manager/route_manager.py:314-334): the record, or `none` when the
name is not registered. -/
def RouteManager.get_route (rm : RouteManager) (route_name : String) :
    Option RouteRec :=
  rm.routes.lookup route_name

/-- Embedding of `RouteManager.shortest_path_route`
(src/route_manager/route_manager.py:336-358), which delegates to the osmnx
`shortest_path` collaborator; see `dfsPath` for the spec-modelled
collaborator. -/
def RouteManager.shortest_path_route (rm : RouteManager)
    (start_osm_id end_osm_id : ℕ) : Except Err (List ℕ) :=
  match dfsPath rm.graph end_osm_id (rm.graph.nodes.card + 1) [] start_osm_id
  with
  | some p => .ok p
  | none => .error .noPathError

/-- Embedding of `RouteManager.add_shortest_path_route`
(src/route_manager/route_manager.py:288-312): compute the shortest path and
delegate to `add_route`; a `NoPathError` from the path search propagates to
the caller. -/
def RouteManager.add_shortest_path_route (rm : RouteManager)
    (route_name : String) (start_node end_node : ℕ) :
    Except Err RouteManager :=
  (rm.shortest_path_route start_node end_node).map
    (fun path => rm.add_route route_name start_node end_node path)

/-- Embedding of `RouteManager.calc_fitness_for_routes`
(src/route_manager/route_manager.py:360-377): with no registered fitness
function, log a warning and return; otherwise write
`route_attributes["fitness"]` for every route.  The second component is the
list of warnings logged. -/
def RouteManager.calc_fitness_for_routes (rm : RouteManager) :
    RouteManager × List String :=
  match rm.fitness_func with
  | none => (rm, ["Fitness function not registered."])
  | some f =>
    ({ rm with
        routes := rm.routes.map (fun nr => (nr.1, { nr.2 with fitness := some (f nr.2) })) },
      [])

/-! Constants from src/route_manager/constants.py. -/

def MIN_ROUTE_DISTANCE : ℚ := 1
def MAX_ROUTE_DISTANCE : ℚ := 1500
def MIN_DISTANCE_VARIANCE : ℚ := 0
def MAX_DISTANCE_VARIANCE : ℚ := 3000
def MAX_INCLINE_PERCENT : ℚ := 5
def MAX_DECLINE_PERCENT : ℚ := 5

/-- The `Fitness` instance state set by `Fitness.__init__`
(src/route_manager/fitness.py:61-143). -/
structure Fitness where
  distance : ℚ
  dist_variance : ℚ
  max_inclide_percent : ℚ
  max_decline_percent : ℚ
  weights : List (String × ℚ)

/-- The fixed weight table installed by the constructor
(src/route_manager/fitness.py:131-143). -/
def fitnessWeights : List (String × ℚ) :=
  [("desired_distance", 1), ("road_type", 1), ("number_of_junctions", 1),
   ("junctions", 1), ("turns", 1), ("uphill_sections", 1),
   ("downhill_sections", 1), ("number_of_lanes", 1), ("one_way_routes", 1),
   ("narrow_roads", 1), ("downhills_with_lights", 1)]

/-- Embedding of `Fitness.__init__` (src/route_manager/fitness.py:61-143):
each argument is range-checked against the constants (raising `ValueError` on
violation, embedded as `invalidArgument`), then the weight table is
installed. -/
def mkFitness (distance dist_variance max_incline_percent
    max_decline_percent : ℚ) : Except Err Fitness :=
  if ¬ (MIN_ROUTE_DISTANCE ≤ distance ∧ distance ≤ MAX_ROUTE_DISTANCE) then
    .error .invalidArgument
  else if ¬ (MIN_DISTANCE_VARIANCE ≤ dist_variance ∧
      dist_variance ≤ MAX_DISTANCE_VARIANCE) then
    .error .invalidArgument
  else if ¬ (0 ≤ max_incline_percent ∧
      max_incline_percent ≤ MAX_INCLINE_PERCENT) then
    .error .invalidArgument
  else if ¬ (0 ≤ max_decline_percent ∧
      max_decline_percent ≤ MAX_DECLINE_PERCENT) then
    .error .invalidArgument
  else
    .ok { distance := distance, dist_variance := dist_variance,
          max_inclide_percent := max_incline_percent,
          max_decline_percent := max_decline_percent,
          weights := fitnessWeights }

/-! The eleven criterion calculators
(src/route_manager/fitness.py:220-413) are all unimplemented stubs that
`return 0`. -/

def Fitness.calculate_desired_distance_score (_f : Fitness) : Score := .val 0
def Fitness.calculate_road_type_criterion_score (_f : Fitness) : Score := .val 0
def Fitness.calculate_number_of_junctions_score (_f : Fitness) : Score := .val 0
def Fitness.calculate_complexity_of_junctions_score (_f : Fitness) : Score := .val 0
def Fitness.calculate_turns_score (_f : Fitness) : Score := .val 0
def Fitness.calculate_uphill_sections_score (_f : Fitness) : Score := .val 0
def Fitness.calculate_downhill_sections_score (_f : Fitness) : Score := .val 0
def Fitness.calculate_number_of_lanes_score (_f : Fitness) : Score := .val 0
def Fitness.calculate_one_way_routes_score (_f : Fitness) : Score := .val 0
def Fitness.calculate_narrow_roads_score (_f : Fitness) : Score := .val 0
def Fitness.calculate_downhills_with_lights (_f : Fitness) : Score := .val 0

/-- Embedding of `Fitness.calculate_fitness`
(src/route_manager/fitness.py:415-464): build the criterion-score table,
return `-inf` if the `desired_distance` or `uphill_sections` hard criterion
is `-inf`, and otherwise sum the weighted scores over the weight table.  The
`route_attributes` argument is accepted and, as in the source, never used. -/
def Fitness.calculate_fitness (f : Fitness) (_route_attributes : RouteRec) :
    Score :=
  let scores : List (String × Score) :=
    [("desired_distance", f.calculate_desired_distance_score),
     ("road_type", f.calculate_road_type_criterion_score),
     ("number_of_junctions", f.calculate_number_of_junctions_score),
     ("junctions", f.calculate_complexity_of_junctions_score),
     ("turns", f.calculate_turns_score),
     ("uphill_sections", f.calculate_uphill_sections_score),
     ("downhill_sections", f.calculate_downhill_sections_score),
     ("number_of_lanes", f.calculate_number_of_lanes_score),
     ("one_way_routes", f.calculate_one_way_routes_score),
     ("narrow_roads", f.calculate_narrow_roads_score),
     ("downhills_with_lights", f.calculate_downhills_with_lights)]
  if (scores.lookup "desired_distance").getD (.val 0) = Score.ninf ∨
      (scores.lookup "uphill_sections").getD (.val 0) = Score.ninf then
    .ninf
  else
    f.weights.foldl
      (fun fitness cw =>
        fitness.add (Score.smul cw.2 ((scores.lookup cw.1).getD (.val 0))))
      (.val 0)

/-- On finite in-domain inputs, `calculate_distance_score` succeeds and
returns the core formula. -/
lemma calculate_distance_score_valid (d a m : ℚ)
    (hm : 0 < m) (hmd : m < d) (ha : 0 < a) :
    calculate_distance_score (.fin d) (.fin a) (.fin m) =
      .ok (distScoreCore d a m) := by
  simp [calculate_distance_score, F.blt, F.toRat, hm, hmd, ha, lt_trans hm hmd]

/-- On validated inputs the base score rewrites to `m / (m + v)`. -/
lemma base_eq (m v : ℚ) (hmv : 0 < m + v) :
    1 - v / (m + v) = m / (m + v) := by
  field_simp

/-- The core distance score is antitone in the deviation `|d - a|`. -/
lemma distScoreCore_mono (d a1 a2 m : ℚ) (hm : 0 < m)
    (hdev : |d - a1| ≤ |d - a2|) :
    distScoreCore d a2 m ≤ distScoreCore d a1 m := by
  have h1 : (0:ℚ) ≤ |d - a1| := abs_nonneg _
  have h2 : (0:ℚ) ≤ |d - a2| := abs_nonneg _
  have hm1 : 0 < m + |d - a1| := by linarith
  have hm2 : 0 < m + |d - a2| := by linarith
  simp only [distScoreCore, base_eq m _ hm1, base_eq m _ hm2]
  by_cases hc1 : m < |d - a1| <;> by_cases hc2 : m < |d - a2| <;>
    simp only [hc1, hc2, if_true, if_false]
  · gcongr
  · exact absurd (lt_of_lt_of_le hc1 hdev) hc2
  · have hb2 : m / (m + |d - a2|) ≤ 1 := (div_le_one hm2).2 (by linarith)
    have hb1 : (1:ℚ)/2 ≤ m / (m + |d - a1|) := by
      rw [div_le_div_iff₀ (by norm_num) hm1]
      have := not_lt.1 hc1
      linarith
    have hstep : m / (m + |d - a2|) * (1/100) ≤ 1 * (1/100) :=
      mul_le_mul_of_nonneg_right hb2 (by norm_num)
    linarith
  · gcongr

/-- C1: for every input satisfying the preconditions, `calculate_distance_score`
returns `base = 1 − deviation/(max_variance + deviation)` when the deviation
is at most `max_variance` — hence exactly 1 when `actual_dist = desired_dist`
— and returns `base * 0.01` (the fixed penalty factor) when the deviation
exceeds `max_variance`, rather than negative infinity. -/
theorem distance_score_formula (d a m : ℚ)
    (hm : 0 < m) (hmd : m < d) (ha : 0 < a) :
    calculate_distance_score (.fin d) (.fin a) (.fin m) =
      .ok (if m < |d - a| then (1 - |d - a| / (m + |d - a|)) * (1 / 100)
           else 1 - |d - a| / (m + |d - a|)) ∧
    (a = d → calculate_distance_score (.fin d) (.fin a) (.fin m) = .ok 1) := by
  constructor
  · rw [calculate_distance_score_valid d a m hm hmd ha]
    simp [distScoreCore]
  · intro had
    rw [had, calculate_distance_score_valid d d m hm hmd (lt_trans hm hmd)]
    simp [distScoreCore, lt_asymm hm]

/-- Witness for C1: at `desired = 2, actual = 2, max_variance = 1` the score
is exactly 1. -/
theorem distance_score_formula_witness :
    calculate_distance_score (.fin 2) (.fin 2) (.fin 1) = .ok 1 :=
  (distance_score_formula 2 2 1 (by norm_num) (by norm_num) (by norm_num)).2
    rfl

/-- C3: every invalid-argument input (`max_variance = 0`,
`max_variance ≥ desired_dist`, `actual_dist ≤ 0`, or a non-finite
`desired_dist`/`actual_dist`/`max_variance`) makes
`calculate_distance_score` fail with the `InvalidArgument` error, never
coercing or returning a default score. -/
theorem distance_score_invalid_arguments (desired_dist actual_dist max_variance : F)
    (h : max_variance = .fin 0 ∨
      (∃ dq mq, desired_dist = .fin dq ∧ max_variance = .fin mq ∧ dq ≤ mq) ∨
      (∃ aq, actual_dist = .fin aq ∧ aq ≤ 0) ∨
      desired_dist.isFinite = false ∨ actual_dist.isFinite = false ∨
      max_variance.isFinite = false) :
    calculate_distance_score desired_dist actual_dist max_variance =
      .error .invalidArgument := by
  by_cases h1 : F.blt (.fin 0) max_variance ∧ F.blt max_variance desired_dist
  case neg => simp [calculate_distance_score, h1]
  by_cases h2 : F.blt (.fin 0) actual_dist ∧ F.blt actual_dist .inf
  case neg => simp [calculate_distance_score, h1, h2]
  by_cases h3 : F.blt (.fin 0) desired_dist ∧ F.blt desired_dist .inf
  case neg => simp [calculate_distance_score, h1, h2, h3]
  exfalso
  obtain ⟨h1a, h1b⟩ := h1
  obtain ⟨h2a, h2b⟩ := h2
  obtain ⟨h3a, h3b⟩ := h3
  rcases h with hmv0 | ⟨dq, mq, hd, hmq, hle⟩ | ⟨aq, ha, hle⟩ | hnd | hna | hnm
  · subst hmv0
    simp [F.blt] at h1a
  · subst hd
    subst hmq
    simp [F.blt] at h1b
    exact absurd h1b (not_lt.2 hle)
  · subst ha
    simp [F.blt] at h2a
    exact absurd h2a (not_lt.2 hle)
  · cases desired_dist <;> simp [F.isFinite] at hnd <;>
      simp [F.blt] at h3a h3b
  · cases actual_dist <;> simp [F.isFinite] at hna <;>
      simp [F.blt] at h2a h2b
  · cases max_variance <;> simp [F.isFinite] at hnm <;>
      simp [F.blt] at h1a <;> cases desired_dist <;> simp [F.blt] at h1b

/-- Witness for C3: `max_variance = 0` is rejected. -/
theorem distance_score_invalid_arguments_witness :
    calculate_distance_score (.fin 1000) (.fin 100) (.fin 0) =
      .error .invalidArgument :=
  distance_score_invalid_arguments _ _ _ (Or.inl rfl)

/-- C4: for fixed valid `desired_dist` and `max_variance`,
`calculate_distance_score` is monotonically non-increasing in the deviation
`|desired_dist − actual_dist|`, including across the penalty threshold. -/
theorem distance_score_monotone (d a1 a2 m : ℚ)
    (hm : 0 < m) (hmd : m < d) (ha1 : 0 < a1) (ha2 : 0 < a2)
    (hdev : |d - a1| ≤ |d - a2|) :
    calculate_distance_score (.fin d) (.fin a1) (.fin m) =
      .ok (distScoreCore d a1 m) ∧
    calculate_distance_score (.fin d) (.fin a2) (.fin m) =
      .ok (distScoreCore d a2 m) ∧
    distScoreCore d a2 m ≤ distScoreCore d a1 m :=
  ⟨calculate_distance_score_valid d a1 m hm hmd ha1,
   calculate_distance_score_valid d a2 m hm hmd ha2,
   distScoreCore_mono d a1 a2 m hm hdev⟩

/-- Witness for C4: deviation 2 (beyond `max_variance = 1`, penalised)
scores no better than deviation 1 (at the threshold). -/
theorem distance_score_monotone_witness :
    calculate_distance_score (.fin 4) (.fin 3) (.fin 1) =
      .ok (distScoreCore 4 3 1) ∧
    calculate_distance_score (.fin 4) (.fin 2) (.fin 1) =
      .ok (distScoreCore 4 2 1) ∧
    distScoreCore 4 2 1 ≤ distScoreCore 4 3 1 :=
  distance_score_monotone 4 3 2 1 (by norm_num) (by norm_num) (by norm_num)
    (by norm_num) (by norm_num)

/-- C10: on every input satisfying the preconditions the returned score lies
strictly within `(0, 1]`: never negative infinity, never 0, never above 1. -/
theorem distance_score_range (d a m : ℚ)
    (hm : 0 < m) (hmd : m < d) (ha : 0 < a) :
    ∃ s, calculate_distance_score (.fin d) (.fin a) (.fin m) = .ok s ∧
      0 < s ∧ s ≤ 1 := by
  refine ⟨distScoreCore d a m,
    calculate_distance_score_valid d a m hm hmd ha, ?_, ?_⟩ <;>
  · have hv : (0:ℚ) ≤ |d - a| := abs_nonneg _
    have hmv : 0 < m + |d - a| := by linarith
    have hb1 : 0 < m / (m + |d - a|) := div_pos hm hmv
    have hb2 : m / (m + |d - a|) ≤ 1 := (div_le_one hmv).2 (by linarith)
    simp only [distScoreCore, base_eq m _ hmv]
    split <;> nlinarith

/-- Witness for C10: concrete in-range score for `desired = 4, actual = 1,
max_variance = 1`. -/
theorem distance_score_range_witness :
    ∃ s, calculate_distance_score (.fin 4) (.fin 1) (.fin 1) = .ok s ∧
      0 < s ∧ s ≤ 1 :=
  distance_score_range 4 1 1 (by norm_num) (by norm_num) (by norm_num)

/-- The loop accumulator of `calculate_road_type_score` computes exactly the
three sums `raw`, `total_length`, `prohibited_length`. -/
lemma roadAcc_eq (hl : String → Option ℚ) :
    roadAcc hl = (rawScore hl, totalLength hl, prohibitedLength hl) := by
  have key : ∀ (l : List (String × ℕ)) (init : ℚ × ℚ × ℚ),
      (l.foldl
        (fun acc hw =>
          match hl hw.1 with
          | some len =>
            if hw.2 = 0 then (acc.1, acc.2.1 + len, acc.2.2 + len)
            else (acc.1 + (hw.2 : ℚ) * len, acc.2.1 + len, acc.2.2)
          | none => acc)
        init) =
      (init.1 + (l.map (fun hw =>
          if hw.2 = 0 then 0 else (hw.2 : ℚ) * ((hl hw.1).getD 0))).sum,
       init.2.1 + (l.map (fun hw => (hl hw.1).getD 0)).sum,
       init.2.2 + (l.map (fun hw =>
          if hw.2 = 0 then (hl hw.1).getD 0 else 0)).sum) := by
    intro l
    induction l with
    | nil => intro init; simp
    | cons hw t ih =>
      intro init
      simp only [List.foldl_cons, List.map_cons, List.sum_cons]
      cases hhw : hl hw.1 with
      | none =>
        rw [ih]
        simp [hhw]
      | some len =>
        by_cases hz : hw.2 = 0 <;>
          simp only [hhw, hz, ite_true, ite_false] <;>
          rw [ih] <;>
          simp [Prod.ext_iff, add_assoc, add_comm, add_left_comm]
  have h := key highway_weights (0, 0, 0)
  simpa [roadAcc, rawScore, totalLength, prohibitedLength] using h

/-- Every value stored in a non-negative length map is non-negative after
defaulting. -/
lemma getD_nonneg (hl : String → Option ℚ)
    (hnn : ∀ s q, hl s = some q → 0 ≤ q) (s : String) :
    0 ≤ (hl s).getD 0 := by
  cases h : hl s with
  | none => simp
  | some q => simpa using hnn s q h

/-- C5: for every non-negative highway-length mapping,
`calculate_road_type_score` returns `raw / (total_length * 4)` — `raw`
multiplied by the 0.1 penalty exactly when some known prohibited type
contributes positive length — and returns exactly 0 when the total known
length is 0, in particular on the empty mapping. -/
theorem road_type_score_formula (hl : String → Option ℚ)
    (hnn : ∀ s q, hl s = some q → 0 ≤ q) :
    (calculate_road_type_score hl =
      if totalLength hl = 0 then 0
      else (if 0 < prohibitedLength hl then rawScore hl * (1 / 10)
            else rawScore hl) / (totalLength hl * 4)) ∧
    (0 < prohibitedLength hl ↔
      ∃ hw ∈ highway_weights, hw.2 = 0 ∧
        ∃ len, hl hw.1 = some len ∧ 0 < len) ∧
    calculate_road_type_score (fun _ => none) = 0 := by
  refine ⟨?_, ?_, ?_⟩
  · simp only [calculate_road_type_score, roadAcc_eq hl]
  · constructor
    · intro hpos
      by_contra hno
      push_neg at hno
      have hzero : prohibitedLength hl = 0 := by
        apply List.sum_eq_zero
        intro x hx
        obtain ⟨hw, hmem, rfl⟩ := List.mem_map.1 hx
        by_cases hz : hw.2 = 0
        · simp only [hz, if_true, ite_true]
          cases hhw : hl hw.1 with
          | none => simp
          | some len =>
            have h1 : len ≤ 0 := hno hw hmem hz len hhw
            have h2 : 0 ≤ len := hnn hw.1 len hhw
            simp [le_antisymm h1 h2]
        · simp [hz]
      rw [prohibitedLength] at hpos
      rw [prohibitedLength] at hzero
      rw [hzero] at hpos
      exact lt_irrefl 0 hpos
    · rintro ⟨hw, hmem, hz, len, hlen, hpos⟩
      have hterm : (if hw.2 = 0 then (hl hw.1).getD 0 else 0) = len := by
        simp [hz, hlen]
      have hle : len ≤ prohibitedLength hl := by
        apply List.single_le_sum
        · intro x hx
          obtain ⟨hw', hmem', rfl⟩ := List.mem_map.1 hx
          by_cases hz' : hw'.2 = 0
          · simp only [hz', if_true, ite_true]
            exact getD_nonneg hl hnn hw'.1
          · simp [hz']
        · rw [← hterm]
          exact List.mem_map_of_mem _ hmem
      linarith
  · rfl

/-- Witness for C5: a mapping with 100 m of `residential` (weight 3, no
prohibited length) satisfies the formula. -/
theorem road_type_score_formula_witness :
    calculate_road_type_score (fun s => if s = "residential" then some 100 else none) =
      if totalLength (fun s => if s = "residential" then some 100 else none) = 0 then 0
      else (if 0 < prohibitedLength (fun s => if s = "residential" then some 100 else none) then
              rawScore (fun s => if s = "residential" then some 100 else none) * (1 / 10)
            else rawScore (fun s => if s = "residential" then some 100 else none)) /
        (totalLength (fun s => if s = "residential" then some 100 else none) * 4) :=
  (road_type_score_formula _ (by
    intro s q h
    by_cases hs : s = "residential" <;> simp [hs] at h <;> simp [← h])).1

/-- The keys of the highway weight table are distinct (it embeds a Python
dict). -/
lemma highway_weights_keys_nodup : (highway_weights.map Prod.fst).Nodup := by
  decide

/-- Splitting a sum over a key-Nodup association list at one distinguished
entry: if `f` and `g` agree away from the key of `e`, their sums differ
exactly by the difference at `e`. -/
lemma sum_map_diff_one {l : List (String × ℕ)}
    (hkeys : (l.map Prod.fst).Nodup) {e : String × ℕ} (hmem : e ∈ l)
    (f g : String × ℕ → ℚ)
    (hfg : ∀ hw ∈ l, hw.1 ≠ e.1 → f hw = g hw) :
    (l.map f).sum = (l.map g).sum + (f e - g e) := by
  induction l with
  | nil => cases hmem
  | cons hw t ih =>
    simp only [List.map_cons, List.sum_cons]
    have hhead : hw.1 ∉ t.map Prod.fst := (List.nodup_cons.1 hkeys).1
    have htail : (t.map Prod.fst).Nodup := (List.nodup_cons.1 hkeys).2
    rcases List.mem_cons.1 hmem with heq | hmemt
    · subst heq
      have hcongr : ∀ x ∈ t, f x = g x := by
        intro x hx
        refine hfg x (List.mem_cons_of_mem _ hx) ?_
        intro hk
        exact hhead (hk ▸ List.mem_map_of_mem Prod.fst hx)
      rw [List.map_congr_left hcongr]
      ring
    · have hkey : hw.1 ≠ e.1 := by
        intro hk
        exact hhead (hk ▸ List.mem_map_of_mem Prod.fst hmemt)
      rw [ih htail hmemt
          (fun x hx hne => hfg x (List.mem_cons_of_mem _ hx) hne),
        hfg hw (List.mem_cons_self _ _) hkey]
      ring

/-- Splitting a sum over a key-Nodup association list at two distinguished
entries: if `f` and `g` agree away from the keys of `eP` and `eQ`, their sums
differ exactly by the two entry differences. -/
lemma sum_map_diff_two {l : List (String × ℕ)}
    (hkeys : (l.map Prod.fst).Nodup) {eP eQ : String × ℕ}
    (hPmem : eP ∈ l) (hQmem : eQ ∈ l) (hne : eP.1 ≠ eQ.1)
    (f g : String × ℕ → ℚ)
    (hfg : ∀ hw ∈ l, hw.1 ≠ eP.1 → hw.1 ≠ eQ.1 → f hw = g hw) :
    (l.map f).sum = (l.map g).sum + (f eP - g eP) + (f eQ - g eQ) := by
  set h : String × ℕ → ℚ := fun hw => if hw.1 = eQ.1 then f hw else g hw
    with hh
  have hfh : (l.map f).sum = (l.map h).sum + (f eP - h eP) := by
    apply sum_map_diff_one hkeys hPmem
    intro hw hmem hk
    by_cases hq : hw.1 = eQ.1
    · simp [hh, hq]
    · simp [hh, hq, hfg hw hmem hk hq]
  have hhg : (l.map h).sum = (l.map g).sum + (h eQ - g eQ) := by
    apply sum_map_diff_one hkeys hQmem
    intro hw _ hk
    simp [hh, hk]
  have heP : h eP = g eP := by simp [hh, hne]
  have heQ : h eQ = f eQ := by simp [hh]
  rw [hfh, hhg, heP, heQ]
  ring

/-- C6: moving a positive length `L` from a "prefer"-weighted category `P`
(weight 3) to a "prohibited" category `Q` (weight 0), holding the total
length fixed, strictly decreases `calculate_road_type_score`. -/
theorem road_type_score_prefer_to_prohibited (hl : String → Option ℚ)
    (P Q : String) (hPmem : (P, 3) ∈ highway_weights)
    (hQmem : (Q, 0) ∈ highway_weights) (hPQ : P ≠ Q)
    (L lP lQ : ℚ) (hL : 0 < L) (hLP : L ≤ lP)
    (hlP : hl P = some lP) (hlQ : (hl Q).getD 0 = lQ)
    (hnn : ∀ s q, hl s = some q → 0 ≤ q) :
    calculate_road_type_score
        (fun k => if k = P then some (lP - L)
                  else if k = Q then some (lQ + L) else hl k) <
      calculate_road_type_score hl := by
  set hl2 : String → Option ℚ :=
    fun k => if k = P then some (lP - L)
             else if k = Q then some (lQ + L) else hl k with hhl2
  have hl2P : hl2 P = some (lP - L) := by simp [hhl2]
  have hl2Q : hl2 Q = some (lQ + L) := by simp [hhl2, Ne.symm hPQ]
  have hl2other : ∀ k, k ≠ P → k ≠ Q → hl2 k = hl k := by
    intro k h1 h2
    simp [hhl2, h1, h2]
  have hraw : rawScore hl2 = rawScore hl - 3 * L := by
    have h := sum_map_diff_two highway_weights_keys_nodup hPmem hQmem hPQ
      (fun hw => if hw.2 = 0 then 0 else (hw.2 : ℚ) * ((hl2 hw.1).getD 0))
      (fun hw => if hw.2 = 0 then 0 else (hw.2 : ℚ) * ((hl hw.1).getD 0))
      (fun hw _ h1 h2 => by simp only [hl2other hw.1 h1 h2])
    unfold rawScore
    rw [h]
    simp only [hl2P, hl2Q, hlP, Option.getD_some]
    norm_num
    ring
  have htot : totalLength hl2 = totalLength hl := by
    have h := sum_map_diff_two highway_weights_keys_nodup hPmem hQmem hPQ
      (fun hw => (hl2 hw.1).getD 0)
      (fun hw => (hl hw.1).getD 0)
      (fun hw _ h1 h2 => by simp only [hl2other hw.1 h1 h2])
    unfold totalLength
    rw [h]
    simp only [hl2P, hl2Q, hlP, hlQ, Option.getD_some]
    ring
  have hpro : prohibitedLength hl2 = prohibitedLength hl + L := by
    have h := sum_map_diff_two highway_weights_keys_nodup hPmem hQmem hPQ
      (fun hw => if hw.2 = 0 then (hl2 hw.1).getD 0 else 0)
      (fun hw => if hw.2 = 0 then (hl hw.1).getD 0 else 0)
      (fun hw _ h1 h2 => by simp only [hl2other hw.1 h1 h2])
    unfold prohibitedLength
    rw [h]
    simp only [hl2P, hl2Q, hlP, hlQ, Option.getD_some]
    norm_num
  have hlP0 : 0 ≤ lP := hnn P lP hlP
  have htotP : lP ≤ totalLength hl := by
    apply List.single_le_sum
    · intro x hx
      obtain ⟨hw, _, rfl⟩ := List.mem_map.1 hx
      exact getD_nonneg hl hnn hw.1
    · have hv : ((hl (P, 3).1).getD 0 : ℚ) = lP := by simp [hlP]
      rw [← hv]
      exact List.mem_map_of_mem _ hPmem
  have hrawP : 3 * lP ≤ rawScore hl := by
    apply List.single_le_sum
    · intro x hx
      obtain ⟨hw, _, rfl⟩ := List.mem_map.1 hx
      by_cases hz : hw.2 = 0
      · simp [hz]
      · simp only [hz, ite_false, if_false]
        exact mul_nonneg (Nat.cast_nonneg _) (getD_nonneg hl hnn hw.1)
    · have hv : (if ((P, 3) : String × ℕ).2 = 0 then 0
          else (((P, 3) : String × ℕ).2 : ℚ) * ((hl (P, 3).1).getD 0)) =
            3 * lP := by
        simp [hlP]
      rw [← hv]
      exact List.mem_map_of_mem _ hPmem
  have hpro0 : 0 ≤ prohibitedLength hl := by
    apply List.sum_nonneg
    intro x hx
    obtain ⟨hw, _, rfl⟩ := List.mem_map.1 hx
    by_cases hz : hw.2 = 0
    · simp only [hz, ite_true, if_true]
      exact getD_nonneg hl hnn hw.1
    · simp [hz]
  have htot0 : 0 < totalLength hl := lt_of_lt_of_le (hL.trans_le hLP) htotP
  have hT4 : 0 < totalLength hl * 4 := by positivity
  have heq2 : calculate_road_type_score hl2 =
      (rawScore hl - 3 * L) * (1 / 10) / (totalLength hl * 4) := by
    simp only [calculate_road_type_score, roadAcc_eq, hraw, htot, hpro]
    rw [if_pos (by linarith : 0 < prohibitedLength hl + L),
      if_neg (ne_of_gt htot0)]
  have heq1 : calculate_road_type_score hl =
      (if 0 < prohibitedLength hl then rawScore hl * (1 / 10)
       else rawScore hl) / (totalLength hl * 4) := by
    simp only [calculate_road_type_score, roadAcc_eq]
    rw [if_neg (ne_of_gt htot0)]
  rw [heq1, heq2]
  by_cases hp : 0 < prohibitedLength hl
  · rw [if_pos hp, div_lt_div_iff_of_pos_right hT4]
    nlinarith
  · rw [if_neg hp, div_lt_div_iff_of_pos_right hT4]
    nlinarith

/-- Witness for C6: moving 50 of the 150 m of `residential` (prefer) to
`motorway` (prohibited) strictly lowers the score. -/
theorem road_type_score_prefer_to_prohibited_witness :
    calculate_road_type_score
        (fun k => if k = "residential" then some ((150 : ℚ) - 50)
                  else if k = "motorway" then some ((0 : ℚ) + 50)
                  else (fun s => if s = "residential" then some (150 : ℚ)
                        else none) k) <
      calculate_road_type_score
        (fun s => if s = "residential" then some (150 : ℚ) else none) :=
  road_type_score_prefer_to_prohibited
    (fun s => if s = "residential" then some (150 : ℚ) else none)
    "residential" "motorway" (by decide) (by decide) (by decide)
    50 150 0 (by norm_num) (by norm_num) rfl rfl
    (by
      intro s q h
      by_cases hs : s = "residential" <;> simp [hs] at h <;> simp [← h])

/-- Soundness of the spec-modelled path search: a returned list really is a
walk from the start node to the end node. -/
lemma dfsPath_sound (g : Graph) (e : ℕ) :
    ∀ fuel visited s p, dfsPath g e fuel visited s = some p →
      p.head? = some s ∧ p.getLast? = some e ∧
        p.Chain' (fun a b => b ∈ g.succ a) := by
  intro fuel
  induction fuel with
  | zero =>
    intro visited s p h
    simp [dfsPath] at h
  | succ n ih =>
    intro visited s p h
    by_cases hse : s = e
    · simp only [dfsPath, hse, if_true, ite_true, Option.some.injEq] at h
      subst h
      subst hse
      exact ⟨rfl, rfl, List.chain'_singleton s⟩
    · by_cases hv : s ∈ visited
      · simp [dfsPath, hse, hv] at h
      · simp only [dfsPath, hse, hv, if_false, ite_false] at h
        obtain ⟨n', hmem, hn'⟩ := List.exists_of_findSome?_eq_some h
        cases hd : dfsPath g e n (s :: visited) n' with
        | none =>
          rw [hd] at hn'
          cases hn'
        | some p' =>
          rw [hd] at hn'
          obtain ⟨h1, h2, h3⟩ := ih (s :: visited) n' p' hd
          have hp : p = s :: p' := by
            simpa [eq_comm] using hn'
          subst hp
          refine ⟨rfl, ?_, ?_⟩
          · cases p' with
            | nil => cases h1
            | cons x t => simpa [List.getLast?_cons_cons] using h2
          · refine List.chain'_cons'.2 ⟨?_, h3⟩
            intro y hy
            rw [h1] at hy
            cases hy
            exact hmem

/-- C2: on a registry whose graph has no walk from `start_node` to
`end_node`, `add_shortest_path_route` fails with `NoPathError`; the failure
is surfaced to the caller and no route is registered. -/
theorem add_shortest_path_route_no_path (rm : RouteManager)
    (route_name : String) (start_node end_node : ℕ)
    (hnopath : ¬ ∃ p, rm.graph.IsWalkFrom start_node end_node p) :
    rm.add_shortest_path_route route_name start_node end_node =
      .error .noPathError := by
  unfold RouteManager.add_shortest_path_route RouteManager.shortest_path_route
  cases hd : dfsPath rm.graph end_node (rm.graph.nodes.card + 1) [] start_node
  with
  | none => simp [hd, Except.map]
  | some p =>
    exact absurd ⟨p, dfsPath_sound rm.graph end_node _ [] start_node p hd⟩
      hnopath

/-- Witness for C2: a two-node edgeless graph has no path from 1 to 2, and
registering its shortest path fails with `NoPathError`. -/
theorem add_shortest_path_route_no_path_witness :
    RouteManager.add_shortest_path_route
        ⟨⟨{1, 2}, fun _ => []⟩, [], none⟩ "r" 1 2 = .error .noPathError :=
  add_shortest_path_route_no_path ⟨⟨{1, 2}, fun _ => []⟩, [], none⟩ "r" 1 2
    (by
      rintro ⟨p, h1, h2, h3⟩
      match p with
      | [] => simp at h1
      | [a] =>
        simp at h1 h2
        omega
      | a :: b :: t =>
        exact absurd (List.chain'_cons.1 h3).1 (by simp))

/-- Membership in the neighbour set built by `get_path_neigbours`. -/
lemma mem_get_path_neigbours (rm : RouteManager) (path : List ℕ) (n : ℕ) :
    n ∈ rm.get_path_neigbours path ↔ ∃ m ∈ path, n ∈ rm.graph.succ m := by
  have key : ∀ (l : List ℕ) (init : Finset ℕ),
      n ∈ l.foldl (fun acc node => acc ∪ (rm.graph.succ node).toFinset) init ↔
        n ∈ init ∨ ∃ m ∈ l, n ∈ rm.graph.succ m := by
    intro l
    induction l with
    | nil => intro init; simp
    | cons x t ih =>
      intro init
      simp only [List.foldl_cons]
      rw [ih]
      simp [or_assoc]
  simpa using key path ∅

/-- C8: after `add_route`, `get_route` returns a record whose `path`,
`start_node`, `end_node` equal the registered values, whose `route_graph`
node set is exactly the nodes of `path`, and whose
`route_and_neighbour_graph` node set is exactly `path` together with the
one-hop neighbours of every node of `path` (a `Finset`, so duplicate-free),
provided the graph contains all nodes of `path`. -/
theorem add_route_get_route_roundtrip (rm : RouteManager)
    (route_name : String) (start_node end_node : ℕ) (path : List ℕ)
    (hpath : ∀ n ∈ path, n ∈ rm.graph.nodes)
    (hwf : ∀ n m, m ∈ rm.graph.succ n → m ∈ rm.graph.nodes) :
    ∃ r, (rm.add_route route_name start_node end_node path).get_route
        route_name = some r ∧
      r.path = path ∧ r.start_node = start_node ∧ r.end_node = end_node ∧
      (∀ n, n ∈ r.route_graph.nodes ↔ n ∈ path) ∧
      (∀ n, n ∈ r.route_and_neighbour_graph.nodes ↔
        n ∈ path ∨ ∃ m ∈ path, n ∈ rm.graph.succ m) := by
  have hrec : (rm.add_route route_name start_node end_node path).get_route
      route_name = some
      ⟨start_node, end_node, path, rm.graph.subgraph path.toFinset,
        rm.graph.subgraph (rm.get_path_neigbours path ∪ path.toFinset),
        none⟩ := by
    simp [RouteManager.add_route, RouteManager.get_route, List.lookup]
  refine ⟨_, hrec, rfl, rfl, rfl, ?_, ?_⟩
  · intro n
    simp only [RouteManager.add_route, Graph.subgraph, Finset.mem_inter,
      List.mem_toFinset]
    exact ⟨fun h => h.2, fun h => ⟨hpath n h, h⟩⟩
  · intro n
    simp only [RouteManager.add_route, Graph.subgraph, Finset.mem_inter,
      Finset.mem_union, List.mem_toFinset]
    constructor
    · rintro ⟨-, hnb | hp⟩
      · exact Or.inr ((mem_get_path_neigbours rm path n).1 hnb)
      · exact Or.inl hp
    · rintro (hp | ⟨m, hm, hsucc⟩)
      · exact ⟨hpath n hp, Or.inr hp⟩
      · exact ⟨hwf m n hsucc,
          Or.inl ((mem_get_path_neigbours rm path n).2 ⟨m, hm, hsucc⟩)⟩

/-- Witness for C8: registering the path `[1, 2]` on a two-node cycle graph
and reading it back. -/
theorem add_route_get_route_roundtrip_witness :
    ∃ r, (RouteManager.add_route
        ⟨⟨{1, 2}, fun n => if n = 1 then [2] else if n = 2 then [1] else []⟩,
          [], none⟩ "r" 1 2 [1, 2]).get_route "r" = some r ∧
      r.path = [1, 2] ∧ r.start_node = 1 ∧ r.end_node = 2 ∧
      (∀ n, n ∈ r.route_graph.nodes ↔ n ∈ [1, 2]) ∧
      (∀ n, n ∈ r.route_and_neighbour_graph.nodes ↔
        n ∈ [1, 2] ∨ ∃ m ∈ [1, 2],
          n ∈ (fun n => if n = 1 then [2] else if n = 2 then [1] else [])
            m) :=
  add_route_get_route_roundtrip
    ⟨⟨{1, 2}, fun n => if n = 1 then [2] else if n = 2 then [1] else []⟩,
      [], none⟩ "r" 1 2 [1, 2]
    (by decide)
    (by
      intro n m hm
      by_cases h1 : n = 1
      · simp [h1] at hm
        simp [hm]
      · by_cases h2 : n = 2 <;> simp [h1, h2] at hm <;> simp [hm])

/-- C7: invoking `calc_fitness_for_routes` with no registered fitness
function is a no-op that logs the `NotConfigured` warning: it raises
nothing, writes no fitness value, and leaves the registry (every route
record included) unchanged. -/
theorem calc_fitness_not_configured (rm : RouteManager)
    (h : rm.fitness_func = none) :
    rm.calc_fitness_for_routes =
      (rm, ["Fitness function not registered."]) ∧
    ∀ route_name,
      rm.calc_fitness_for_routes.1.get_route route_name =
        rm.get_route route_name := by
  have h1 : rm.calc_fitness_for_routes =
      (rm, ["Fitness function not registered."]) := by
    unfold RouteManager.calc_fitness_for_routes
    rw [h]
  exact ⟨h1, fun route_name => by rw [h1]⟩

/-- Witness for C7: a registry with no fitness function is returned
unchanged together with the warning. -/
theorem calc_fitness_not_configured_witness :
    RouteManager.calc_fitness_for_routes ⟨⟨{1, 2}, fun _ => []⟩, [], none⟩ =
      (⟨⟨{1, 2}, fun _ => []⟩, [], none⟩,
        ["Fitness function not registered."]) ∧
    ∀ route_name,
      (RouteManager.calc_fitness_for_routes
          ⟨⟨{1, 2}, fun _ => []⟩, [], none⟩).1.get_route route_name =
        RouteManager.get_route ⟨⟨{1, 2}, fun _ => []⟩, [], none⟩
          route_name :=
  calc_fitness_not_configured ⟨⟨{1, 2}, fun _ => []⟩, [], none⟩ rfl

/-- C9: every validly-constructed `Fitness` instance computes a fitness of
exactly 0 for every route-attributes record: all eleven criterion
calculators are stubs returning 0, the hard-fail branch is never taken, and
the weighted sum is 0. -/
theorem fitness_always_zero (distance dist_variance max_incline_percent
    max_decline_percent : ℚ) (f : Fitness) (attrs : RouteRec)
    (h : mkFitness distance dist_variance max_incline_percent
      max_decline_percent = .ok f) :
    f.calculate_fitness attrs = Score.val 0 := by
  unfold mkFitness at h
  split_ifs at h
  all_goals first
    | exact Except.noConfusion h
    | (injection h with h'
       subst h'
       simp [Fitness.calculate_fitness, fitnessWeights, Score.add, Score.smul,
         List.lookup, Fitness.calculate_desired_distance_score,
         Fitness.calculate_road_type_criterion_score,
         Fitness.calculate_number_of_junctions_score,
         Fitness.calculate_complexity_of_junctions_score,
         Fitness.calculate_turns_score, Fitness.calculate_uphill_sections_score,
         Fitness.calculate_downhill_sections_score,
         Fitness.calculate_number_of_lanes_score,
         Fitness.calculate_one_way_routes_score,
         Fitness.calculate_narrow_roads_score,
         Fitness.calculate_downhills_with_lights])

/-- Witness for C9: a concrete valid configuration scores a concrete route
record as exactly 0. -/
theorem fitness_always_zero_witness :
    Fitness.calculate_fitness ⟨1000, 100, 5, 5, fitnessWeights⟩
      ⟨1, 2, [1, 2], ⟨{1, 2}, fun _ => []⟩, ⟨{1, 2}, fun _ => []⟩, none⟩ =
      Score.val 0 :=
  fitness_always_zero 1000 100 5 5 _ _ (by rfl)

end RouteManagerProof
